import Mathlib

/-!
Verification of the rendering core of the `kavi` repository.

The definitions below are shallow embeddings of the Rust sources:
  * `src/gui/render/glyph_atlas.rs` — glyph-atlas texture sizing and lookup,
  * `src/gui/render.rs` — per-frame glyph-placement buffer construction and
    the compute-dispatch size,
  * `src/gui/render/backend/vulkan/pipeline.rs` — descriptor-set-layout merge,
  * `src/gui/render/backend.rs` — frame orchestration (begin/draw/recreate),
  * `src/gui/render/backend/vulkan/{buffer,image,swapchain}.rs` — resource
    destruction order, memory mapping, and swapchain acquire/present.

Machine integers are modelled as `Nat` (with explicit `% 2 ^ 64` where u64
wrapping matters); fallible Rust functions become `Except String`; Vulkan/DXGI
side effects are modelled as explicit request/event values.
-/

set_option maxRecDepth 8000

namespace Kavi

/-! ## Glyph atlas sizing (`glyph_atlas.rs`, `GlyphAtlas::new`)

The Rust code searches for the texture width with
`std::iter::successors(Some(1), |&n| Some(2 * n)).find(|x| (x / glyph_width) * (x / glyph_height) >= glyph_count)`
and then for the height with
`std::iter::successors(Some(texture_width), |n| Some(n / 2)).find(|n| ((n / 2) + glyph_height - 1) / glyph_height < rows_used)`.
We embed the two searches as fuelled iterations (`u32` doubling from 1
visits at most 32 values before overflow, halving from the width at most 33
values before reaching 0 and staying there). -/

/-- `successors(Some(start), |&n| Some(2 * n)).find(p)`, fuelled. -/
def pow2Find (p : Nat → Bool) : Nat → Nat → Option Nat
  | 0, _ => none
  | fuel + 1, x => if p x then some x else pow2Find p fuel (2 * x)

/-- `successors(Some(start), |n| Some(n / 2)).find(p)`, fuelled. -/
def halveFind (p : Nat → Bool) : Nat → Nat → Option Nat
  | 0, _ => none
  | fuel + 1, x => if p x then some x else halveFind p fuel (x / 2)

/-- `texture_width` from `GlyphAtlas::new`: the first power of two `x`
(doubling from 1) with `(x / glyph_width) * (x / glyph_height) >= glyph_count`. -/
def textureWidth (glyphWidth glyphHeight glyphCount : Nat) : Option Nat :=
  pow2Find (fun x => glyphCount ≤ (x / glyphWidth) * (x / glyphHeight)) 33 1

/-- `rows_used` from `GlyphAtlas::new`:
`(glyph_count + glyphs_per_row - 1) / glyphs_per_row` with
`glyphs_per_row = texture_width / glyph_width`. -/
def rowsUsed (glyphWidth glyphCount w : Nat) : Nat :=
  (glyphCount + w / glyphWidth - 1) / (w / glyphWidth)

/-- `texture_height` from `GlyphAtlas::new`: halving from the texture width,
the first `n` with `((n / 2) + glyph_height - 1) / glyph_height < rows_used`. -/
def textureHeight (glyphWidth glyphHeight glyphCount w : Nat) : Option Nat :=
  halveFind (fun n => (n / 2 + glyphHeight - 1) / glyphHeight < rowsUsed glyphWidth glyphCount w) 34 w

/-- The `(texture_width, texture_height)` pair computed by `GlyphAtlas::new`. -/
def atlasDims (glyphWidth glyphHeight glyphCount : Nat) : Option (Nat × Nat) :=
  match textureWidth glyphWidth glyphHeight glyphCount with
  | none => none
  | some w => (textureHeight glyphWidth glyphHeight glyphCount w).map (fun h => (w, h))

/-- Modelled from the spec: the height search the spec describes — "shrink the
texture height downward by halving from W while it still accommodates
`ceil(glyph_count / (W/glyph_width))` rows at `glyph_height` each, stopping at
the smallest height that still fits", i.e. halving from `w`, the first `n`
whose half no longer holds `rows_used * glyph_height` pixels. -/
def specTextureHeight (glyphWidth glyphHeight glyphCount w : Nat) : Option Nat :=
  halveFind (fun n => n / 2 < rowsUsed glyphWidth glyphCount w * glyphHeight) 34 w

/-- The staging-buffer size allocated by `GlyphAtlas::new`
(`texture_width * texture_height` bytes) and the pixel index written for a
covered glyph pixel (`pixel_x + texture_width * pixel_y`). -/
def pixelIndex (textureW pixelX pixelY : Nat) : Nat :=
  pixelX + textureW * pixelY

/-! ## Placement buffer and dispatch (`render.rs`)

`Render::update_buffer` walks the text with a cursor `(x, y)`; a character
with an atlas entry appends `{atlas_x, atlas_y, pos_x, pos_y}` and advances
`x`; an unmapped newline resets `x` and advances `y`; any other unmapped
character is skipped. `Render::draw_frame` records
`cb.dispatch(text.len_chars() as u32, 1, 1)`. -/

/-- `CharEntry` from `render.rs`. -/
structure CharEntry where
  atlas_x : Nat
  atlas_y : Nat
  pos_x : Nat
  pos_y : Nat
deriving DecidableEq, Repr

/-- The loop body of `Render::update_buffer`, with the cursor `(x, y)` made
explicit; `get` is `GlyphAtlas::get`. -/
def updateBufferLoop (get : Char → Option (Nat × Nat)) : List Char → Nat → Nat → List CharEntry
  | [], _, _ => []
  | c :: rest, x, y =>
    match get c with
    | some (ax, ay) => ⟨ax, ay, x, y⟩ :: updateBufferLoop get rest (x + 1) y
    | none =>
      if c = '\n' then updateBufferLoop get rest 0 (y + 1)
      else updateBufferLoop get rest x y

/-- The glyph-placement entries one `Render::update_buffer` call writes. -/
def update_buffer (get : Char → Option (Nat × Nat)) (text : List Char) : List CharEntry :=
  updateBufferLoop get text 0 0

/-- The work-group count of the compute dispatch recorded by
`Render::draw_frame`: `text.len_chars()`. -/
def dispatchCount (text : List Char) : Nat :=
  text.length

/-- A concrete atlas mapping only `a` (used as counterexample input). -/
def atlasOnlyA : Char → Option (Nat × Nat) :=
  fun c => if c = 'a' then some (0, 0) else none

/-- A concrete atlas mapping `a`, `b`, `c` but not `\n` (witness input). -/
def atlasABC : Char → Option (Nat × Nat) :=
  fun c =>
    if c = 'a' then some (0, 0)
    else if c = 'b' then some (1, 0)
    else if c = 'c' then some (2, 0)
    else none

/-! ## Descriptor-set-layout merge (`pipeline.rs`, `create_descriptor_set_layouts`)

The Rust code folds every `(stage, (set, binding, kind, count))` declaration
of the registered shaders into a `BTreeMap<(u32, u32), (StageFlags, DescriptorType, u32)>`:
a vacant key is inserted, an occupied key with matching kind/count gets its
stage flags or-ed, a mismatch bails with
`"there are conflicting descriptors"`. `set_count` tracks the highest set
index. The map (a sorted association list here) is then turned into one
binding list per set index and into descriptor-pool sizes accumulated in
iteration order. -/

/-- Key of the merge map: `(set, binding)`. -/
abbrev DescKey := Nat × Nat

/-- Value of the merge map: `(stage flags, descriptor kind, count)`. -/
abbrev DescVal := Nat × Nat × Nat

/-- Lexicographic order on `(set, binding)` — the `BTreeMap` key order. -/
def keyLt (a b : DescKey) : Prop :=
  a.1 < b.1 ∨ (a.1 = b.1 ∧ a.2 < b.2)

instance (a b : DescKey) : Decidable (keyLt a b) := by
  unfold keyLt; exact inferInstance

/-- The message of `anyhow::bail!("there are conflicting descriptors")`. -/
def conflictMsg : String := "there are conflicting descriptors"

/-- One `map.entry((set, binding))` step of the merge: insert into the sorted
association list, or-ing stages on a matching occupied entry and failing on a
kind/count mismatch. -/
def btreeInsert (stage kind count : Nat) (key : DescKey) :
    List (DescKey × DescVal) → Except String (List (DescKey × DescVal))
  | [] => .ok [(key, (stage, kind, count))]
  | e :: rest =>
    if key = e.1 then
      if e.2.2.1 = kind ∧ e.2.2.2 = count then
        .ok ((e.1, (e.2.1 ||| stage, e.2.2.1, e.2.2.2)) :: rest)
      else .error conflictMsg
    else if keyLt key e.1 then
      .ok ((key, (stage, kind, count)) :: e :: rest)
    else
      (btreeInsert stage kind count key rest).map (fun t => e :: t)

/-- `btreeInsert` lifted over an `Except` state (error propagates). -/
def insThen (stage kind count : Nat) (key : DescKey) :
    Except String (List (DescKey × DescVal)) → Except String (List (DescKey × DescVal))
  | .error e => .error e
  | .ok m => btreeInsert stage kind count key m

/-- `ShaderMetadata` from `pipeline.rs`: entry point, stage flags, and
`(set, binding, descriptor kind, count)` tuples. -/
structure ShaderMetadata where
  entry : String
  stage : Nat
  descriptors : List (Nat × Nat × Nat × Nat)

/-- The flattened declaration stream of the merge loop:
`shaders.iter().flat_map(|s| s.descriptors.iter().map(|d| (s.stage, d)))`. -/
def shaderDecls (shaders : List ShaderMetadata) : List (Nat × Nat × Nat × Nat × Nat) :=
  shaders.flatMap (fun s => s.descriptors.map (fun d => (s.stage, d)))

/-- The `set_count` update of one merge iteration:
`if set > set_count { set_count = set }`. -/
def updSetCount (setCount set : Nat) : Nat :=
  if setCount < set then set else setCount

/-- One iteration of the merge loop: update `set_count` with
`if set > set_count { set_count = set }` and insert the declaration. -/
def mergeStep (acc : Except String (List (DescKey × DescVal) × Nat))
    (d : Nat × Nat × Nat × Nat × Nat) :
    Except String (List (DescKey × DescVal) × Nat) :=
  match acc with
  | .error e => .error e
  | .ok (m, setCount) =>
    (btreeInsert d.1 d.2.2.2.1 d.2.2.2.2 (d.2.1, d.2.2.1) m).map
      (fun m => (m, updSetCount setCount d.2.1))

/-- The `(map, set_count)` state after the whole merge loop. -/
def mergeDescriptors (shaders : List ShaderMetadata) :
    Except String (List (DescKey × DescVal) × Nat) :=
  (shaderDecls shaders).foldl mergeStep (.ok ([], 0))

/-- One `vk::DescriptorSetLayoutBinding` produced by the builder. -/
structure LayoutBinding where
  binding : Nat
  kind : Nat
  count : Nat
  stages : Nat
deriving DecidableEq, Repr

/-- The binding list created for one set index: the map entries of that set,
in map order. -/
def setLayout (m : List (DescKey × DescVal)) (set : Nat) : List LayoutBinding :=
  (m.filter (fun e => e.1.1 == set)).map (fun e => ⟨e.1.2, e.2.2.1, e.2.2.2, e.2.1⟩)

/-- One step of `descriptor_pool_sizes` maintenance: bump the entry of this
descriptor kind or push a new one. -/
def poolSizesAdd (acc : List (Nat × Nat)) (kind count : Nat) : List (Nat × Nat) :=
  match acc with
  | [] => [(kind, count)]
  | (k, c) :: rest =>
    if k = kind then (k, c + count) :: rest else (k, c) :: poolSizesAdd rest kind count

/-- `create_descriptor_set_layouts` from `pipeline.rs`: the per-set binding
lists and the descriptor-pool sizes (accumulated over the bindings in the
order the per-set loop visits them). -/
def create_descriptor_set_layouts (shaders : List ShaderMetadata) :
    Except String (List (List LayoutBinding) × List (Nat × Nat)) :=
  (mergeDescriptors shaders).map (fun r =>
    let setCount := r.2 + 1
    let ordered := (List.range setCount).flatMap (fun set => r.1.filter (fun e => e.1.1 == set))
    ((List.range setCount).map (setLayout r.1),
     ordered.foldl (fun acc e => poolSizesAdd acc e.2.2.1 e.2.2.2) []))

/-- The compute shader registered by `render.rs` (`cs_with_font`):
stage `COMPUTE` (0x20), bindings `(0,0,STORAGE_IMAGE,1)`,
`(0,1,STORAGE_IMAGE,1)`, `(0,2,STORAGE_BUFFER,1)` (`STORAGE_IMAGE` = 3,
`STORAGE_BUFFER` = 7 in Vulkan). -/
def COMPUTE_SHADER : ShaderMetadata :=
  ⟨"cs_with_font", 32, [(0, 0, 3, 1), (0, 1, 3, 1), (0, 2, 7, 1)]⟩

/-- The fragment shader registered by `render.rs` (`main_fs`):
stage `FRAGMENT` (0x10), binding `(0,0,STORAGE_IMAGE,1)`. -/
def FRAGMENT_SHADER : ShaderMetadata :=
  ⟨"main_fs", 16, [(0, 0, 3, 1)]⟩

/-- A shader declaring `(set 1, binding 2)` as a storage image (conflict
counterexample input). -/
def shaderImageAt12 : ShaderMetadata := ⟨"a", 32, [(1, 2, 3, 1)]⟩

/-- A shader declaring `(set 1, binding 2)` as a storage buffer (conflict
counterexample input). -/
def shaderBufferAt12 : ShaderMetadata := ⟨"b", 16, [(1, 2, 7, 1)]⟩

/-- A shader declaring `(set 3, binding 4)` as a storage image (conflict
counterexample input). -/
def shaderImageAt34 : ShaderMetadata := ⟨"a", 32, [(3, 4, 3, 1)]⟩

/-- A shader declaring `(set 3, binding 4)` as a storage buffer (conflict
counterexample input). -/
def shaderBufferAt34 : ShaderMetadata := ⟨"b", 16, [(3, 4, 7, 1)]⟩

/-! ## Frame orchestration (`backend.rs`)

`begin_frame` blocks on `in_flight_fences[self.frame]`, acquires an image,
then blocks on the acquired image's own `Frame.in_flight` fence if one is
recorded, records the slot fence as the image's in-flight fence and returns.
`draw_frame` resets the slot fence and submits with it; the GPU signals the
fence when the submission finishes. We model this as a labelled transition
system whose states carry the signaled-state of the `FRAMES_IN_FLIGHT`
fences, the current frame slot, the per-image `in_flight` record, and the
set of submitted-but-unfinished submissions; a blocking fence wait is a
transition guard (the operation completes only once every waited fence is
signaled), and `queue_submit`/`reset_fences` carry their Vulkan valid-usage
guard that the fence is not already associated with a pending submission. -/

/-- `FRAMES_IN_FLIGHT` from `backend.rs`. -/
def FRAMES_IN_FLIGHT : Nat := 1

/-- State of the frame orchestrator and its fences. `fenceSignaled` is the
signaled-state of `in_flight_fences` (all created `SIGNALED`); `frames`
holds each image slot's `in_flight` fence index; `outstanding` lists the
`(image index, fence index)` of submissions the GPU has not yet finished. -/
structure BackendState where
  fenceSignaled : List Bool
  frame : Nat
  frames : List (Option Nat)
  outstanding : List (Nat × Nat)
deriving Repr

/-- The state after `RenderBackend::new` with `imageCount` swapchain images:
fences signaled, `frame = 0`, no in-flight record, nothing submitted. -/
def initBackend (imageCount : Nat) : BackendState :=
  ⟨List.replicate FRAMES_IN_FLIGHT true, 0, List.replicate imageCount none, []⟩

/-- The fence indices `begin_frame` waits on when the swapchain hands it
image `idx`, in order: `in_flight_fences[self.frame]`, then the image's own
`Frame.in_flight` fence if set. -/
def beginWaits (s : BackendState) (idx : Nat) : List Nat :=
  s.frame :: (s.frames.getD idx none).toList

/-- Signaled-state lookup of fence `f`. -/
def isSignaled (s : BackendState) (f : Nat) : Bool :=
  s.fenceSignaled.getD f false

/-- `begin_frame` returns only once every fence it waits on is signaled. -/
def beginReady (s : BackendState) (idx : Nat) : Bool :=
  (beginWaits s idx).all (isSignaled s)

/-- The state change of a completed `begin_frame` on image `idx`:
`frame.in_flight = Some(fence)`. -/
def beginFrame (s : BackendState) (idx : Nat) : BackendState :=
  { s with frames := s.frames.set idx (some s.frame) }

/-- Vulkan valid usage of `draw_frame`'s `reset_fences`/`queue_submit`: the
slot fence must not be associated with a still-pending submission. -/
def drawReady (s : BackendState) : Bool :=
  s.outstanding.all (fun e => e.2 != s.frame)

/-- The state change of `draw_frame` presenting image `idx`: reset the slot
fence, submit with it, advance `self.frame` modulo `FRAMES_IN_FLIGHT`. -/
def drawFrame (s : BackendState) (idx : Nat) : BackendState :=
  { s with
    fenceSignaled := s.fenceSignaled.set s.frame false,
    outstanding := s.outstanding ++ [(idx, s.frame)],
    frame := (s.frame + 1) % FRAMES_IN_FLIGHT }

/-- The GPU finishing a submission: its fence becomes signaled. -/
def completeSubmission (s : BackendState) (e : Nat × Nat) : BackendState :=
  { s with
    fenceSignaled := s.fenceSignaled.set e.2 true,
    outstanding := s.outstanding.erase e }

/-- The transitions of the render loop. -/
inductive Step : BackendState → BackendState → Prop where
  | begin (s : BackendState) (idx : Nat) (hidx : idx < s.frames.length)
      (h : beginReady s idx = true) : Step s (beginFrame s idx)
  | draw (s : BackendState) (idx : Nat) (h : drawReady s = true) :
      Step s (drawFrame s idx)
  | complete (s : BackendState) (e : Nat × Nat) (h : e ∈ s.outstanding) :
      Step s (completeSubmission s e)

/-- States reachable from `RenderBackend::new`. -/
inductive Reachable (imageCount : Nat) : BackendState → Prop where
  | init : Reachable imageCount (initBackend imageCount)
  | step {s t : BackendState} : Reachable imageCount s → Step s t →
      Reachable imageCount t

/-- Invariant of the orchestrator with `FRAMES_IN_FLIGHT = 1`: the slot index
stays 0, there is exactly one fence, and either nothing is in flight or
exactly one submission is, its (unique) fence unsignaled. -/
def BackendInv (s : BackendState) : Prop :=
  s.frame = 0 ∧ s.fenceSignaled.length = FRAMES_IN_FLIGHT ∧
  (s.outstanding = [] ∨
    ∃ i, s.outstanding = [(i, 0)] ∧ s.fenceSignaled.getD 0 false = false)

/-! ## Swapchain recreation (`backend.rs`, `RenderBackend::recreate_swapchain`)

The resize path drains the old frames into `(command buffer, in_flight)`
pairs, recreates the swapchain images, and zips the freshly created
framebuffers with the saved pairs index-for-index. -/

/-- A per-image frame: framebuffer, command buffer, optional in-flight
fence (handles modelled as identifiers). -/
structure Frame where
  fb : Nat
  cb : Nat
  inFlight : Option Nat
deriving DecidableEq, Repr

/-- The frame rebuild of `recreate_swapchain`:
`old_frames = frames.drain(..).map(|f| (f.cb, f.in_flight))` zipped with the
new framebuffers. -/
def recreate_frames (oldFrames : List Frame) (newFbs : List Nat) : List Frame :=
  let old := oldFrames.map (fun f => (f.cb, f.inFlight))
  (newFbs.zip old).map (fun p => ⟨p.1, p.2.1, p.2.2⟩)

/-! ## Resource destruction (`buffer.rs`, `image.rs`) -/

/-- A release action performed by a `Drop` impl. -/
inductive ReleaseEvent where
  | freeMemory (mem : Nat)
  | destroyBuffer (handle : Nat)
  | destroyImage (handle : Nat)
deriving DecidableEq, Repr

/-- `Buffer` from `buffer.rs` (handles as identifiers). -/
structure Buffer where
  raw : Nat
  memory : Nat
  size : Nat
deriving DecidableEq, Repr

/-- The release sequence of `impl Drop for Buffer`: `free_memory` then
`destroy_buffer`. -/
def bufferDrop (b : Buffer) : List ReleaseEvent :=
  [.freeMemory b.memory, .destroyBuffer b.raw]

/-- `Image` from `image.rs`: the memory is `None` for swapchain-owned
images. -/
structure Image where
  raw : Nat
  memory : Option Nat
deriving DecidableEq, Repr

/-- The release sequence of `impl Drop for Image`: inside
`if let Some(memory) = self.memory`, `destroy_image` then `free_memory`;
nothing otherwise. -/
def imageDrop (i : Image) : List ReleaseEvent :=
  match i.memory with
  | some m => [.destroyImage i.raw, .freeMemory m]
  | none => []

/-! ## Buffer memory mapping (`buffer.rs`, `Buffer::map_memory`) -/

/-- The u64 modulus. -/
def U64 : Nat := 2 ^ 64

/-- `Buffer::map_memory::<T>(start, count)` with `size_of::<T>() = sizeOfT`
and buffer size `bufSize`, u64 arithmetic wrapping as in release Rust. On
success it returns the byte offset and byte length passed to `vkMapMemory`
and the element count of the returned slice; on failure no map call is
made. -/
def map_memory (bufSize sizeOfT start count : Nat) : Except String (Nat × Nat × Nat) :=
  if (start + count) % U64 * sizeOfT % U64 ≤ bufSize then
    .ok (sizeOfT * start % U64, sizeOfT * count % U64, count)
  else .error "attempt to map memory outside of buffer limits"

/-! ## Swapchain acquire and present (`swapchain.rs`) -/

/-- What `vkAcquireNextImageKHR` reports to `Swapchain::acquire_next_image`. -/
inductive VkAcquireResult where
  | success (index : Nat) (suboptimal : Bool)
  | outOfDate
  | otherError
deriving DecidableEq, Repr

/-- Outcome of an `acquire_next_image` call: the stale error
(`SwapchainAcquireImageErr::RecreateSwapchain`), a returned image, or a
panic. -/
inductive AcquireOutcome where
  | stale
  | image (index : Nat)
  | panic
deriving DecidableEq, Repr

/-- `Swapchain::acquire_next_image` (native variant): suboptimal or
out-of-date reports become the recreate-swapchain error, any other failure
panics. -/
def swapchain_acquire_next_image : VkAcquireResult → AcquireOutcome
  | .success _ true => .stale
  | .success idx false => .image idx
  | .outOfDate => .stale
  | .otherError => .panic

/-- What `vkQueuePresentKHR` reports to `Swapchain::present`. -/
inductive VkPresentResult where
  | success (suboptimal : Bool)
  | outOfDate
  | otherError
deriving DecidableEq, Repr

/-- Outcome of a `present` call. -/
inductive PresentOutcome where
  | ok
  | err
  | panic
deriving DecidableEq, Repr

/-- `Swapchain::present` (native variant): out-of-date is swallowed
(`Ok(())`), other errors are returned. -/
def swapchain_present : VkPresentResult → PresentOutcome
  | .success _ => .ok
  | .outOfDate => .ok
  | .otherError => .err

/-- `DxgiSwapchain::acquire_next_image`: signals the timeline semaphore and
always returns the current back-buffer index — no input makes it report
`RecreateSwapchain`. -/
def dxgi_acquire_next_image (backBufferIndex : Nat) : AcquireOutcome :=
  .image backBufferIndex

/-- `S_OK`. -/
def S_OK : Int := 0

/-- `DXGI_STATUS_OCCLUDED`, a non-`S_OK` status a stale/occluded DXGI
presentation can report. -/
def DXGI_STATUS_OCCLUDED : Int := 0x087A0001

/-- `DxgiSwapchain::present`: `assert_eq!(err, S_OK)` — any non-`S_OK`
report from `Present` panics. -/
def dxgi_present (hr : Int) : PresentOutcome :=
  if hr = S_OK then .ok else .panic

/-! ## Theorems -/

theorem keyLt_asymm {a b : DescKey} (h : keyLt a b) : ¬ keyLt b a := by
  obtain ⟨a1, a2⟩ := a; obtain ⟨b1, b2⟩ := b
  simp only [keyLt] at *; omega

theorem keyLt_total {a b : DescKey} (h : ¬ a = b) : keyLt a b ∨ keyLt b a := by
  obtain ⟨a1, a2⟩ := a; obtain ⟨b1, b2⟩ := b
  simp only [Prod.mk.injEq, not_and] at h
  simp only [keyLt]
  by_cases h1 : a1 = b1
  · subst h1; have := h rfl; omega
  · omega

theorem keyLt_trans {a b c : DescKey} (h1 : keyLt a b) (h2 : keyLt b c) : keyLt a c := by
  obtain ⟨a1, a2⟩ := a; obtain ⟨b1, b2⟩ := b; obtain ⟨c1, c2⟩ := c
  simp only [keyLt] at *; omega

theorem btreeInsert_error {st kd ct : Nat} {k : DescKey} :
    ∀ {m : List (DescKey × DescVal)} {e : String},
      btreeInsert st kd ct k m = .error e → e = conflictMsg := by
  intro m
  induction m with
  | nil => intro e h; simp [btreeInsert] at h
  | cons hd tl ih =>
    intro e h
    simp only [btreeInsert] at h
    split_ifs at h with h1 h2 h3
    · cases h
      rfl
    · cases hb : btreeInsert st kd ct k tl with
      | ok t =>
        rw [hb] at h
        simp [Except.map] at h
      | error e2 =>
        rw [hb] at h
        simp only [Except.map] at h
        cases h
        exact ih hb

theorem keyLt_irrefl (a : DescKey) : ¬ keyLt a a := by
  obtain ⟨a1, a2⟩ := a
  simp only [keyLt]; omega

theorem insThen_map_cons {st kd ct : Nat} {k : DescKey} {hd : DescKey × DescVal}
    (hne : ¬ k = hd.1) (hnlt : ¬ keyLt k hd.1)
    (r : Except String (List (DescKey × DescVal))) :
    insThen st kd ct k (r.map (fun t => hd :: t)) =
      (insThen st kd ct k r).map (fun t => hd :: t) := by
  cases r with
  | error e => rfl
  | ok m =>
    simp only [Except.map, insThen, btreeInsert]
    rw [if_neg hne, if_neg hnlt]

theorem insThen_comm_eq (st1 kd1 ct1 st2 kd2 ct2 : Nat) (k : DescKey) :
    ∀ m, insThen st2 kd2 ct2 k (btreeInsert st1 kd1 ct1 k m)
       = insThen st1 kd1 ct1 k (btreeInsert st2 kd2 ct2 k m) := by
  intro m
  induction m with
  | nil =>
    by_cases hc : kd1 = kd2 ∧ ct1 = ct2
    · obtain ⟨h1, h2⟩ := hc
      subst h1; subst h2
      simp [btreeInsert, insThen, Nat.lor_comm]
    · have hc2 : ¬ (kd2 = kd1 ∧ ct2 = ct1) := fun h => hc ⟨h.1.symm, h.2.symm⟩
      simp [btreeInsert, insThen, hc, hc2]
  | cons hd t ih =>
    by_cases hk : k = hd.1
    · by_cases hc1 : hd.2.2.1 = kd1 ∧ hd.2.2.2 = ct1
      · by_cases hc2 : hd.2.2.1 = kd2 ∧ hd.2.2.2 = ct2
        · have h12 : kd1 = kd2 ∧ ct1 = ct2 :=
            ⟨hc1.1.symm.trans hc2.1, hc1.2.symm.trans hc2.2⟩
          have hlor : hd.2.1 ||| st1 ||| st2 = hd.2.1 ||| st2 ||| st1 := by
            rw [Nat.lor_assoc, Nat.lor_assoc, Nat.lor_comm st1 st2]
          simp [btreeInsert, insThen, hk, hc1, hc2, h12, hlor]
        · have h12 : ¬ (kd1 = kd2 ∧ ct1 = ct2) :=
            fun h => hc2 ⟨hc1.1.trans h.1, hc1.2.trans h.2⟩
          simp [btreeInsert, insThen, hk, hc1, hc2, h12]
      · by_cases hc2 : hd.2.2.1 = kd2 ∧ hd.2.2.2 = ct2
        · have h21 : ¬ (kd2 = kd1 ∧ ct2 = ct1) :=
            fun h => hc1 ⟨hc2.1.trans h.1, hc2.2.trans h.2⟩
          simp [btreeInsert, insThen, hk, hc1, hc2, h21]
        · simp [btreeInsert, insThen, hk, hc1, hc2]
    · by_cases hlt : keyLt k hd.1
      · by_cases hc : kd1 = kd2 ∧ ct1 = ct2
        · obtain ⟨h1, h2⟩ := hc
          subst h1; subst h2
          simp [btreeInsert, insThen, hk, hlt, Nat.lor_comm]
        · have hc2 : ¬ (kd2 = kd1 ∧ ct2 = ct1) := fun h => hc ⟨h.1.symm, h.2.symm⟩
          simp [btreeInsert, insThen, hk, hlt, hc, hc2]
      · have e1 : btreeInsert st1 kd1 ct1 k (hd :: t) =
            (btreeInsert st1 kd1 ct1 k t).map (fun t2 => hd :: t2) := by
          simp only [btreeInsert]; rw [if_neg hk, if_neg hlt]
        have e2 : btreeInsert st2 kd2 ct2 k (hd :: t) =
            (btreeInsert st2 kd2 ct2 k t).map (fun t2 => hd :: t2) := by
          simp only [btreeInsert]; rw [if_neg hk, if_neg hlt]
        rw [e1, e2, insThen_map_cons hk hlt, insThen_map_cons hk hlt, ih]

theorem insThen_comm_lt (st1 kd1 ct1 st2 kd2 ct2 : Nat) {k1 k2 : DescKey} (hlt : keyLt k1 k2) :
    ∀ m, insThen st2 kd2 ct2 k2 (btreeInsert st1 kd1 ct1 k1 m)
       = insThen st1 kd1 ct1 k1 (btreeInsert st2 kd2 ct2 k2 m) := by
  have hne : ¬ k1 = k2 := fun h => keyLt_irrefl k2 (h ▸ hlt)
  have hne2 : ¬ k2 = k1 := fun h => hne h.symm
  have hnlt : ¬ keyLt k2 k1 := keyLt_asymm hlt
  intro m
  induction m with
  | nil =>
    simp [btreeInsert, insThen, hne, hne2, hnlt, hlt, Except.map]
  | cons hd t ih =>
    by_cases h1 : k1 = hd.1
    · have h2ne : ¬ k2 = hd.1 := fun h => hne2 (h.trans h1.symm)
      have h2nlt : ¬ keyLt k2 hd.1 := fun h => hnlt (h1 ▸ h)
      by_cases hc1 : hd.2.2.1 = kd1 ∧ hd.2.2.2 = ct1
      · cases hb : btreeInsert st2 kd2 ct2 k2 t with
        | error e =>
          simp [btreeInsert, insThen, h1, hc1, h2ne, h2nlt, hb, Except.map]
        | ok t2 =>
          simp [btreeInsert, insThen, h1, hc1, h2ne, h2nlt, hb, Except.map]
      · cases hb : btreeInsert st2 kd2 ct2 k2 t with
        | error e =>
          have he : e = conflictMsg := btreeInsert_error hb
          subst he
          simp [btreeInsert, insThen, h1, hc1, h2ne, h2nlt, hb, Except.map]
        | ok t2 =>
          simp [btreeInsert, insThen, h1, hc1, h2ne, h2nlt, hb, Except.map]
    · by_cases h2 : k2 = hd.1
      · subst h2
        by_cases hc2 : hd.2.2.1 = kd2 ∧ hd.2.2.2 = ct2
        · simp [btreeInsert, insThen, h1, hc2, hlt, hne, hne2, hnlt, Except.map]
        · simp [btreeInsert, insThen, h1, hc2, hlt, hne, hne2, hnlt, Except.map]
      · by_cases hl1 : keyLt k1 hd.1
        · by_cases hl2 : keyLt k2 hd.1
          · simp [btreeInsert, insThen, h1, h2, hl1, hl2, hne, hne2, hnlt, hlt, Except.map]
          · cases hb : btreeInsert st2 kd2 ct2 k2 t with
            | error e =>
              simp [btreeInsert, insThen, h1, h2, hl1, hl2, hne, hne2, hnlt, hlt, hb, Except.map]
            | ok t2 =>
              simp [btreeInsert, insThen, h1, h2, hl1, hl2, hne, hne2, hnlt, hlt, hb, Except.map]
        · have hl2 : ¬ keyLt k2 hd.1 := by
            intro h
            rcases keyLt_total h1 with hx | hx
            · exact hl1 hx
            · exact hnlt (keyLt_trans h hx)
          have e1 : btreeInsert st1 kd1 ct1 k1 (hd :: t) =
              (btreeInsert st1 kd1 ct1 k1 t).map (fun t2 => hd :: t2) := by
            simp only [btreeInsert]; rw [if_neg h1, if_neg hl1]
          have e2 : btreeInsert st2 kd2 ct2 k2 (hd :: t) =
              (btreeInsert st2 kd2 ct2 k2 t).map (fun t2 => hd :: t2) := by
            simp only [btreeInsert]; rw [if_neg h2, if_neg hl2]
          rw [e1, e2, insThen_map_cons h2 hl2, insThen_map_cons h1 hl1, ih]

theorem insThen_comm (st1 kd1 ct1 st2 kd2 ct2 : Nat) (k1 k2 : DescKey)
    (m : List (DescKey × DescVal)) :
    insThen st2 kd2 ct2 k2 (btreeInsert st1 kd1 ct1 k1 m)
      = insThen st1 kd1 ct1 k1 (btreeInsert st2 kd2 ct2 k2 m) := by
  by_cases h : k1 = k2
  · subst h
    exact insThen_comm_eq st1 kd1 ct1 st2 kd2 ct2 k1 m
  · rcases keyLt_total h with hlt | hlt
    · exact insThen_comm_lt st1 kd1 ct1 st2 kd2 ct2 hlt m
    · exact (insThen_comm_lt st2 kd2 ct2 st1 kd1 ct1 hlt m).symm

theorem updSetCount_comm (sc a b : Nat) :
    updSetCount (updSetCount sc a) b = updSetCount (updSetCount sc b) a := by
  simp only [updSetCount]
  split_ifs <;> omega

theorem mergeStep_mergeStep (m : List (DescKey × DescVal)) (sc : Nat)
    (d1 d2 : Nat × Nat × Nat × Nat × Nat) :
    mergeStep (mergeStep (.ok (m, sc)) d1) d2 =
      (insThen d2.1 d2.2.2.2.1 d2.2.2.2.2 (d2.2.1, d2.2.2.1)
        (btreeInsert d1.1 d1.2.2.2.1 d1.2.2.2.2 (d1.2.1, d1.2.2.1) m)).map
        (fun m2 => (m2, updSetCount (updSetCount sc d1.2.1) d2.2.1)) := by
  cases hb : btreeInsert d1.1 d1.2.2.2.1 d1.2.2.2.2 (d1.2.1, d1.2.2.1) m with
  | error e => simp [mergeStep, hb, insThen, Except.map]
  | ok m1 => simp [mergeStep, hb, insThen, Except.map]

theorem mergeStep_comm (acc : Except String (List (DescKey × DescVal) × Nat))
    (d1 d2 : Nat × Nat × Nat × Nat × Nat) :
    mergeStep (mergeStep acc d1) d2 = mergeStep (mergeStep acc d2) d1 := by
  cases acc with
  | error e => rfl
  | ok p =>
    obtain ⟨m, sc⟩ := p
    rw [mergeStep_mergeStep, mergeStep_mergeStep, insThen_comm, updSetCount_comm]

theorem mergeDescriptors_perm {l1 l2 : List ShaderMetadata} (h : l1.Perm l2) :
    mergeDescriptors l1 = mergeDescriptors l2 := by
  unfold mergeDescriptors
  exact (h.flatMap_right _).foldl_eq' (fun x _ y _ z => mergeStep_comm z x y) _

theorem range_flatMap_single {α : Type} (n : Nat) (f : Nat → List α)
    (hf : ∀ s, ¬ s = n → f s = []) :
    (List.range (n + 1)).flatMap f = f n := by
  rw [List.range_succ, List.flatMap_append]
  have h0 : (List.range n).flatMap f = [] := by
    rw [List.flatMap_eq_nil_iff]
    intro x hx
    exact hf x (Nat.ne_of_lt (List.mem_range.mp hx))
  rw [h0]
  simp

/-- Claim C2: building the descriptor-set-layout collection from the
registered shader metadata is order-independent — for every list of shader
metadata and every permutation of it, `create_descriptor_set_layouts`
produces an identical result: the same per-set binding lists (hence the same
number of sets and the same (binding, kind, count, stage-flags) entries) and
the same descriptor-pool sizes, and in the conflicting case the same error. -/
theorem create_descriptor_set_layouts_order_independent
    (l1 l2 : List ShaderMetadata) (h : l1.Perm l2) :
    create_descriptor_set_layouts l1 = create_descriptor_set_layouts l2 := by
  unfold create_descriptor_set_layouts
  rw [mergeDescriptors_perm h]

/-- Witness for `create_descriptor_set_layouts_order_independent`: the two
shaders of `render.rs` that declare descriptors, registered in both orders. -/
theorem create_descriptor_set_layouts_order_independent_witness :
    create_descriptor_set_layouts [COMPUTE_SHADER, FRAGMENT_SHADER]
      = create_descriptor_set_layouts [FRAGMENT_SHADER, COMPUTE_SHADER] :=
  create_descriptor_set_layouts_order_independent _ _
    (List.Perm.swap FRAGMENT_SHADER COMPUTE_SHADER [])

/-- Claim C3 (counterexample): two shaders declaring `(set 1, binding 2)`
with different descriptor kinds make the build fail, but with the fixed
message `"there are conflicting descriptors"`; the conflict at
`(set 3, binding 4)` produces the very same message, so the message does not
name the offending set/binding. -/
theorem conflicting_descriptor_message_generic :
    create_descriptor_set_layouts [shaderImageAt12, shaderBufferAt12] = .error conflictMsg ∧
    create_descriptor_set_layouts [shaderImageAt34, shaderBufferAt34] = .error conflictMsg ∧
    conflictMsg = "there are conflicting descriptors" := by
  refine ⟨rfl, rfl, rfl⟩

/-- Claim C3 (amended): when two registered shaders declare the same
`(set, binding)` with a different descriptor kind or count, building the
descriptor-set layouts fails with the conflicting-descriptor error — whose
message is the fixed string `"there are conflicting descriptors"` and does
not name the offending set/binding; when kind and count match it succeeds,
and the binding carries the union (bitwise or) of both shaders' stage flags. -/
theorem merge_two_shaders (st1 st2 set b k1 c1 k2 c2 : Nat) (e1 e2 : String) :
    create_descriptor_set_layouts
        [⟨e1, st1, [(set, b, k1, c1)]⟩, ⟨e2, st2, [(set, b, k2, c2)]⟩] =
      if k1 = k2 ∧ c1 = c2 then
        .ok ((List.range (set + 1)).map (setLayout [((set, b), (st1 ||| st2, k1, c1))]),
             [(k1, c1)])
      else .error conflictMsg := by
  have hsc : updSetCount 0 set = set := by
    simp only [updSetCount]
    split_ifs <;> omega
  have hsc2 : updSetCount set set = set := by
    simp only [updSetCount]
    split_ifs <;> omega
  by_cases hc : k1 = k2 ∧ c1 = c2
  · obtain ⟨hk, hcnt⟩ := hc
    subst hk; subst hcnt
    have hmerge : mergeDescriptors
        [⟨e1, st1, [(set, b, k1, c1)]⟩, ⟨e2, st2, [(set, b, k1, c1)]⟩] =
        .ok ([((set, b), (st1 ||| st2, k1, c1))], set) := by
      simp [mergeDescriptors, shaderDecls, mergeStep, btreeInsert, Except.map, hsc, hsc2]
    have hord : (List.range (set + 1)).flatMap
        (fun s => List.filter (fun e => e.1.1 == s) [((set, b), (st1 ||| st2, k1, c1))])
        = [((set, b), (st1 ||| st2, k1, c1))] := by
      rw [range_flatMap_single]
      · simp
      · intro s hs
        have hbe : (set == s) = false := by
          simp only [beq_eq_false_iff_ne, ne_eq]
          exact fun h => hs h.symm
        simp [List.filter, hbe]
    simp only [create_descriptor_set_layouts, hmerge, Except.map, hord, if_pos (And.intro rfl rfl)]
    simp [poolSizesAdd]
  · have hmerge : mergeDescriptors
        [⟨e1, st1, [(set, b, k1, c1)]⟩, ⟨e2, st2, [(set, b, k2, c2)]⟩] =
        .error conflictMsg := by
      simp [mergeDescriptors, shaderDecls, mergeStep, btreeInsert, Except.map, hsc, hc]
    simp only [create_descriptor_set_layouts, hmerge, Except.map, if_neg hc]

/-- Claim C4: the claim says that for `glyph_count = 1`,
`glyph_width = glyph_height = 8` the packing computes an `8x8` texture, the
height being the smallest height (halving from the width) that still fits one
8-pixel row. The code's width is indeed 8, but its height search compares
`ceil((n/2)/glyph_height)` against the row count instead of testing whether
`n/2` pixels fit the rows, so it keeps halving past 8 and returns height 1 —
an 8x1 texture cannot hold the 8x8 glyph (the spec-modelled stopping rule
gives 8), and rasterising a covered pixel at glyph row 7 would write at index
56, outside the 8-byte staging buffer. -/
theorem atlas_dims_8x8_bug :
    atlasDims 8 8 1 = some (8, 1) ∧
    specTextureHeight 8 8 1 8 = some 8 ∧
    pixelIndex 8 0 7 = 56 ∧ 8 * 1 = 8 ∧ (56 < 8) = False := by
  constructor
  · decide
  · constructor
    · decide
    · decide

/-- Claim C1 (counterexample): for the text `"a\n"` and an atlas mapping only
`a`, `Render::draw_frame` records a dispatch of 2 work groups while
`update_buffer` writes a single placement entry, so the dispatch does not
equal the number of placement entries. -/
theorem dispatch_count_counterexample :
    dispatchCount ['a', '\n'] = 2 ∧
    (update_buffer atlasOnlyA ['a', '\n']).length = 1 ∧ (2 : Nat) ≠ 1 := by
  decide

/-- Claim C1 (amended): the compute dispatch recorded by `Render::draw_frame`
has work-group count equal to the total number of characters of the text
(`text.len_chars()`), which is an upper bound on — not in general equal to —
the number of glyph-placement entries written for the frame, since unmapped
characters (newlines included) are counted by the dispatch but contribute no
entry. -/
theorem dispatch_counts_all_chars (get : Char → Option (Nat × Nat)) (text : List Char) :
    dispatchCount text = text.length ∧
    (update_buffer get text).length ≤ text.length := by
  refine ⟨rfl, ?_⟩
  suffices h : ∀ l x y, (updateBufferLoop get l x y).length ≤ l.length from h text 0 0
  intro l
  induction l with
  | nil => intro x y; simp [updateBufferLoop]
  | cons c rest ih =>
    intro x y
    simp only [updateBufferLoop]
    cases get c with
    | some p =>
      cases p with
      | mk ax ay => simpa using Nat.succ_le_succ (ih (x + 1) y)
    | none =>
      by_cases hc : c = '\n'
      · simp only [hc, if_pos rfl]
        exact Nat.le_succ_of_le (ih 0 (y + 1))
      · simp only [if_neg hc]
        exact Nat.le_succ_of_le (ih x y)

/-- Claim C6: for the text `"ab\nc"` and any atlas mapping `a`, `b`, `c` but
not the newline, one `update_buffer` call writes exactly three entries: `a`
at cell `(0,0)`, `b` at `(1,0)`, and `c` at `(0,1)`; the newline writes no
entry, advances the line and resets the horizontal cursor. -/
theorem update_buffer_ab_newline_c (get : Char → Option (Nat × Nat))
    (ta tb tc : Nat × Nat)
    (ha : get 'a' = some ta) (hb : get 'b' = some tb) (hc : get 'c' = some tc)
    (hn : get '\n' = none) :
    update_buffer get ['a', 'b', '\n', 'c'] =
      [⟨ta.1, ta.2, 0, 0⟩, ⟨tb.1, tb.2, 1, 0⟩, ⟨tc.1, tc.2, 0, 1⟩] := by
  simp [update_buffer, updateBufferLoop, ha, hb, hc, hn]

/-- Witness for `update_buffer_ab_newline_c` at the concrete atlas `atlasABC`. -/
theorem update_buffer_ab_newline_c_witness :
    update_buffer atlasABC ['a', 'b', '\n', 'c'] =
      [⟨0, 0, 0, 0⟩, ⟨1, 0, 1, 0⟩, ⟨2, 0, 0, 1⟩] :=
  update_buffer_ab_newline_c atlasABC (0, 0) (1, 0) (2, 0) rfl rfl rfl rfl

/-- Claim C8 (counterexample): dropping an `Image` that owns memory destroys
the native handle first and frees the memory second — the opposite of the
claimed order (memory first, handle second). -/
theorem image_drop_order_counterexample :
    imageDrop ⟨7, some 5⟩ = [.destroyImage 7, .freeMemory 5] ∧
    imageDrop ⟨7, some 5⟩ ≠ [.freeMemory 5, .destroyImage 7] := by
  decide

/-- Claim C8 (amended): dropping a `Buffer` releases what it owns exactly
once, freeing the memory allocation first and destroying the native handle
second; dropping an `Image` that owns an allocation releases each exactly
once but in the opposite order (handle first, memory second), and an `Image`
with no owned allocation (a swapchain image) releases nothing — not even its
handle. -/
theorem drop_release_order (b : Buffer) (i : Image) (m : Nat)
    (hm : i.memory = some m) (i2 : Image) (h2 : i2.memory = none) :
    bufferDrop b = [.freeMemory b.memory, .destroyBuffer b.raw] ∧
    imageDrop i = [.destroyImage i.raw, .freeMemory m] ∧
    imageDrop i2 = [] := by
  refine ⟨rfl, ?_, ?_⟩
  · simp [imageDrop, hm]
  · simp [imageDrop, h2]

/-- Witness for `drop_release_order` at concrete resources. -/
theorem drop_release_order_witness :
    bufferDrop ⟨1, 2, 64⟩ = [.freeMemory 2, .destroyBuffer 1] ∧
    imageDrop ⟨7, some 5⟩ = [.destroyImage 7, .freeMemory 5] ∧
    imageDrop ⟨9, none⟩ = [] :=
  drop_release_order ⟨1, 2, 64⟩ ⟨7, some 5⟩ 5 rfl ⟨9, none⟩ rfl

/-- Claim C9 (counterexample): the DXGI variant's `present` asserts
`S_OK` — a stale/occluded report (`DXGI_STATUS_OCCLUDED`) panics instead of
being returned as success, so "present treats a stale report as non-fatal"
fails for that variant. -/
theorem dxgi_present_stale_panics :
    dxgi_present DXGI_STATUS_OCCLUDED = .panic ∧
    dxgi_present DXGI_STATUS_OCCLUDED ≠ .ok := by
  decide

/-- Claim C9 (amended): the native swapchain's `acquire_next_image` returns
the recreate-swapchain (stale) error on a suboptimal or out-of-date report
and its `present` treats out-of-date (and suboptimal success) as success;
the DXGI variant, however, never reports staleness from
`acquire_next_image` (it always returns the current back-buffer index) and
its `present` panics on any non-`S_OK` report rather than returning
success. -/
theorem swapchain_stale_handling :
    (∀ i, swapchain_acquire_next_image (.success i true) = .stale) ∧
    swapchain_acquire_next_image .outOfDate = .stale ∧
    (∀ i, swapchain_acquire_next_image (.success i false) = .image i) ∧
    swapchain_present .outOfDate = .ok ∧
    (∀ b, swapchain_present (.success b) = .ok) ∧
    (∀ i, dxgi_acquire_next_image i = .image i) ∧
    (∀ hr, ¬ hr = S_OK → dxgi_present hr = .panic) := by
  refine ⟨fun i => rfl, rfl, fun i => rfl, rfl, fun b => rfl, fun i => rfl, ?_⟩
  intro hr h
  simp [dxgi_present, h]

/-- Witness for `swapchain_stale_handling` at concrete reports. -/
theorem swapchain_stale_handling_witness :
    swapchain_acquire_next_image (.success 0 true) = .stale ∧
    dxgi_present 1 = .panic :=
  ⟨swapchain_stale_handling.1 0,
   swapchain_stale_handling.2.2.2.2.2.2 1 (by decide)⟩

/-- Claim C10: `Buffer::map_memory::<T>(start, count)` fails (making no map
call) exactly when `(start + count) * size_of::<T>()` exceeds the buffer's
byte size, and otherwise requests the mapping at byte offset
`start * size_of::<T>()` with byte length `count * size_of::<T>()` and
returns a slice of exactly `count` elements (stated under the no-overflow
bounds within which the u64 arithmetic is exact). -/
theorem map_memory_bounds (bufSize sizeOfT start count : Nat)
    (hsum : start + count < U64) (hprod : (start + count) * sizeOfT < U64) :
    (bufSize < (start + count) * sizeOfT →
      map_memory bufSize sizeOfT start count =
        .error "attempt to map memory outside of buffer limits") ∧
    ((start + count) * sizeOfT ≤ bufSize →
      map_memory bufSize sizeOfT start count =
        .ok (sizeOfT * start, sizeOfT * count, count)) := by
  have h1 : (start + count) % U64 = start + count := Nat.mod_eq_of_lt hsum
  have h2 : (start + count) * sizeOfT % U64 = (start + count) * sizeOfT :=
    Nat.mod_eq_of_lt hprod
  have h3 : sizeOfT * start % U64 = sizeOfT * start := by
    apply Nat.mod_eq_of_lt
    calc sizeOfT * start ≤ (start + count) * sizeOfT := by
          rw [Nat.mul_comm]
          exact Nat.mul_le_mul_right sizeOfT (Nat.le_add_right start count)
      _ < U64 := hprod
  have h4 : sizeOfT * count % U64 = sizeOfT * count := by
    apply Nat.mod_eq_of_lt
    calc sizeOfT * count ≤ (start + count) * sizeOfT := by
          rw [Nat.mul_comm]
          exact Nat.mul_le_mul_right sizeOfT (Nat.le_add_left count start)
      _ < U64 := hprod
  constructor
  · intro hex
    simp only [map_memory, h1, h2]
    rw [if_neg (by omega)]
  · intro hle
    simp only [map_memory, h1, h2, h3, h4]
    rw [if_pos (by omega)]

/-- Claim C7: after `recreate_swapchain`, the frame count equals the number
of swapchain images before the resize (the DXGI `image_count` is unchanged
by `recreate`, so the freshly created framebuffer list has the old length),
and frame `i` is exactly the new framebuffer at index `i` paired with the
pre-resize command buffer and in-flight fence at index `i` — no
command-buffer or fence handle is duplicated or dropped, only the
framebuffers are replaced. -/
theorem recreate_preserves_frames (oldFrames : List Frame) (newFbs : List Nat)
    (h : newFbs.length = oldFrames.length) :
    (recreate_frames oldFrames newFbs).length = oldFrames.length ∧
    ∀ i, i < oldFrames.length →
      (recreate_frames oldFrames newFbs).getD i ⟨0, 0, none⟩ =
        ⟨newFbs.getD i 0,
         (oldFrames.getD i ⟨0, 0, none⟩).cb,
         (oldFrames.getD i ⟨0, 0, none⟩).inFlight⟩ := by
  constructor
  · simp [recreate_frames, h]
  · intro i hi
    have h1 : i < newFbs.length := by omega
    have hz : i < ((newFbs.zip (oldFrames.map fun f => (f.cb, f.inFlight))).map
        (fun p => (⟨p.1, p.2.1, p.2.2⟩ : Frame))).length := by
      simp [h]
      omega
    simp only [recreate_frames]
    rw [List.getD_eq_getElem _ _ hz, List.getD_eq_getElem _ _ h1,
      List.getD_eq_getElem _ _ hi]
    simp

/-- Witness for `recreate_preserves_frames` at two concrete frames. -/
theorem recreate_preserves_frames_witness :
    (recreate_frames [⟨1, 10, some 0⟩, ⟨2, 11, none⟩] [21, 22]).length = 2 ∧
    (recreate_frames [⟨1, 10, some 0⟩, ⟨2, 11, none⟩] [21, 22]).getD 1 ⟨0, 0, none⟩
      = ⟨22, 11, none⟩ := by
  refine ⟨(recreate_preserves_frames _ _ rfl).1, ?_⟩
  have h := (recreate_preserves_frames [⟨1, 10, some 0⟩, ⟨2, 11, none⟩] [21, 22]
    rfl).2 1 (by decide)
  simpa using h

theorem backendInv_init (n : Nat) : BackendInv (initBackend n) :=
  ⟨rfl, by simp [initBackend, FRAMES_IN_FLIGHT], Or.inl rfl⟩

theorem backendInv_step {s t : BackendState} (hs : BackendInv s) (st : Step s t) :
    BackendInv t := by
  obtain ⟨hf, hlen, hout⟩ := hs
  cases st with
  | begin idx hidx h =>
    exact ⟨hf, hlen, hout⟩
  | draw idx h =>
    have hempty : s.outstanding = [] := by
      rcases hout with he | ⟨i, he, hsig⟩
      · exact he
      · exfalso
        rw [drawReady, he] at h
        simp [hf] at h
    obtain ⟨b0, hb⟩ : ∃ b0, s.fenceSignaled = [b0] := by
      cases hsf : s.fenceSignaled with
      | nil => rw [hsf] at hlen; simp [FRAMES_IN_FLIGHT] at hlen
      | cons a t2 =>
        cases t2 with
        | nil => exact ⟨a, rfl⟩
        | cons b t3 => rw [hsf] at hlen; simp [FRAMES_IN_FLIGHT] at hlen
    refine ⟨?_, ?_, ?_⟩
    · simp only [drawFrame, FRAMES_IN_FLIGHT]
      omega
    · simp [drawFrame, hlen]
    · right
      exact ⟨idx, by simp [drawFrame, hempty, hf], by simp [drawFrame, hb, hf]⟩
  | complete e he =>
    rcases hout with hnil | ⟨i, hone, hsig⟩
    · rw [hnil] at he
      cases he
    · have he2 : e = (i, 0) := by
        rw [hone] at he
        simpa using he
      refine ⟨hf, by simp [completeSubmission, hlen], Or.inl ?_⟩
      simp [completeSubmission, hone, he2]

theorem reachable_inv {n : Nat} {s : BackendState} (h : Reachable n s) : BackendInv s := by
  induction h with
  | init => exact backendInv_init n
  | step _ st ih => exact backendInv_step ih st

/-- Claim C5: with `FRAMES_IN_FLIGHT = 1`, in every reachable orchestrator
state `begin_frame` waits on the reused slot's in-flight fence and, if the
acquired image's own in-flight fence is recorded, on that fence too, before
returning; at most one submission is outstanding at any time (so at most one
per image); and whenever `begin_frame`'s waits are all satisfied — i.e.
whenever it can return a frame — no submission (in particular none targeting
the acquired image) is still unfinished. A second `begin_frame` without an
intervening `draw_frame` again waits on the single slot fence, which is
exactly the fence the first `begin_frame` recorded for its image. -/
theorem begin_frame_serializes (n : Nat) (s : BackendState) (hr : Reachable n s)
    (idx : Nat) :
    s.frame ∈ beginWaits s idx ∧
    (∀ f, s.frames.getD idx none = some f → f ∈ beginWaits s idx) ∧
    s.outstanding.length ≤ 1 ∧
    (beginReady s idx = true → s.outstanding = []) := by
  obtain ⟨hf, hlen, hout⟩ := reachable_inv hr
  refine ⟨List.mem_cons_self _ _, ?_, ?_, ?_⟩
  · intro f hfi
    unfold beginWaits
    rw [hfi]
    simp
  · rcases hout with he | ⟨i, he, _⟩ <;> simp [he]
  · intro hready
    rcases hout with he | ⟨i, he, hsig⟩
    · exact he
    · exfalso
      have hmem : s.frame ∈ beginWaits s idx := List.mem_cons_self _ _
      have hsigd := List.all_eq_true.mp hready _ hmem
      rw [hf] at hsigd
      simp only [isSignaled] at hsigd
      rw [hsig] at hsigd
      cases hsigd

/-- Witness for `begin_frame_serializes` at the initial state with three
swapchain images: the waits are satisfied and indeed nothing is
outstanding. -/
theorem begin_frame_serializes_witness :
    beginReady (initBackend 3) 0 = true ∧ (initBackend 3).outstanding = [] :=
  ⟨by decide,
   (begin_frame_serializes 3 (initBackend 3) Reachable.init 0).2.2.2 (by decide)⟩

/-- Witness for `map_memory_bounds`: a 16-byte buffer, 4-byte elements;
mapping elements `[1, 3)` succeeds at byte offset 4, mapping `[1, 5)` is
rejected. -/
theorem map_memory_bounds_witness :
    map_memory 16 4 1 2 = .ok (4, 8, 2) ∧
    map_memory 16 4 1 4 = .error "attempt to map memory outside of buffer limits" :=
  ⟨(map_memory_bounds 16 4 1 2 (by decide) (by decide)).2 (by decide),
   (map_memory_bounds 16 4 1 4 (by decide) (by decide)).1 (by decide)⟩

end Kavi
